import Mathlib

set_option maxRecDepth 10000

/-!
# Verification of the stock dashboard core (`stock_db`)

Shallow embedding of the repository's three source files:

* `src/app.py` — the presentation layer: `calculate_price_difference`
  (year-over-year price change), the render guard of `app()`, the
  date-selector defaults, and the CSV export action.
* `src/lib/stock_helper.py` — the data access layer: `get_stock_data`
  (column normalization and descending sort), `get_stock_metadata`.
* `src/models/metadata.py` — the pydantic schema `StockMetaData`.

Prices and other numeric cells are modelled as rationals (`ℚ`); Python
floats are not modelled bit-for-bit, but every claim checked here is
exact at the values involved.  Partial pandas operations (`iloc` on an
empty frame, column selection with a missing label) are modelled with
`Option`, `none` standing for the raised exception.
-/

/-! ## Price series rows

A row of the canonical normalized price series: exactly the five OHLCV
columns, newest row first (`src/lib/stock_helper.py` lines 50-55
establishes this shape). -/

structure PriceRow where
  open_ : ℚ
  high : ℚ
  low : ℚ
  close : ℚ
  volume : ℚ
  deriving DecidableEq, Repr

/-- A row whose `Close` is `c` (the other columns are irrelevant to the
price-change metric, which reads only `"Close"`). -/
def rowC (c : ℚ) : PriceRow := ⟨0, 0, 0, c, 0⟩

/-! ## `calculate_price_difference` (src/app.py lines 94-102)

```python
latest_price = stock_data.iloc[0]["Close"]
previous_year_price = (
    stock_data.iloc[252]["Close"]
    if len(stock_data) > 252
    else stock_data.iloc[-1]["Close"]
)
price_difference = latest_price - previous_year_price
percentage_difference = (price_difference / previous_year_price) * 100
return price_difference, percentage_difference
```

`iloc[0]` / `iloc[-1]` on an empty frame raise; this is the `none`
branch. -/

/-- `stock_data.iloc[0]["Close"]` — the latest close (rows are sorted
newest first). -/
def latestClose (stock_data : List PriceRow) : Option ℚ :=
  stock_data.head?.map PriceRow.close

/-- The reference close: `iloc[252]` when the series has more than 252
rows, else `iloc[-1]` (the earliest row). -/
def referenceClose (stock_data : List PriceRow) : Option ℚ :=
  (if stock_data.length > 252 then stock_data[252]? else stock_data.getLast?).map
    PriceRow.close

/-- Embedding of `calculate_price_difference` from `src/app.py`:
returns `(price_difference, percentage_difference)`, or `none` when the
`iloc` lookups fail (empty series). -/
def calculate_price_difference (stock_data : List PriceRow) : Option (ℚ × ℚ) :=
  match latestClose stock_data, referenceClose stock_data with
  | some latest_price, some previous_year_price =>
    let price_difference := latest_price - previous_year_price
    let percentage_difference := price_difference / previous_year_price * 100
    some (price_difference, percentage_difference)
  | _, _ => none

/-! Basic facts about the branch structure. -/

theorem referenceClose_of_le (s : List PriceRow) (h : s.length ≤ 252) :
    referenceClose s = s.getLast?.map PriceRow.close := by
  simp [referenceClose, Nat.not_lt.mpr h]

theorem referenceClose_of_gt (s : List PriceRow) (h : 252 < s.length) :
    referenceClose s = s[252]?.map PriceRow.close := by
  simp [referenceClose, h]

theorem calculate_price_difference_eq (s : List PriceRow) (latest ref : ℚ)
    (hl : latestClose s = some latest) (hr : referenceClose s = some ref) :
    calculate_price_difference s = some (latest - ref, (latest - ref) / ref * 100) := by
  simp [calculate_price_difference, hl, hr]

/-! ## Concrete series used as witnesses and counterexamples -/

/-- A 300-row series: `close[0] = 110`, `close[1..251] = 100`,
`close[252..299] = 90`. -/
def seriesC1 : List PriceRow :=
  rowC 110 :: List.replicate 251 (rowC 100) ++ List.replicate 48 (rowC 90)

/-- A 5-row series with `close[0] = 50` and `close[4] = 40`. -/
def series5 : List PriceRow :=
  [rowC 50, rowC 47, rowC 44, rowC 42, rowC 40]

/-- A 1-row series. -/
def series1 : List PriceRow := [rowC 40]

theorem seriesC1_length : seriesC1.length = 300 := by decide

theorem seriesC1_close251 : seriesC1[251]?.map PriceRow.close = some 100 := by decide

/-- Claim C1: for a series sorted descending with more than 252 rows, the
metric allegedly uses `series[251].close` as the reference; on the
300-row series `seriesC1` with `close[0] = 110` and `close[251] = 100`
it allegedly returns `(10, 10.0)`.  The code reads `iloc[252]`
(`close[252] = 90` here), so the result is `(20, 200/9)`, refuting the
claim at an input satisfying all its premises. -/
theorem C1_counterexample :
    seriesC1.length = 300 ∧
    latestClose seriesC1 = some 110 ∧
    seriesC1[251]?.map PriceRow.close = some 100 ∧
    calculate_price_difference seriesC1 ≠ some (10, 10) := by
  refine ⟨seriesC1_length, by decide, seriesC1_close251, ?_⟩
  have h := calculate_price_difference_eq seriesC1 110 90 (by decide) (by decide)
  rw [h]
  intro hc
  rw [Option.some.injEq, Prod.mk.injEq] at hc
  have : (110 : ℚ) - 90 = 10 := hc.1
  norm_num at this

/-- Claim C1 (amended): for every PriceSeries sorted descending by date
with strictly more than 252 rows, `calculate_price_difference` uses
`series[0].close` as the latest price and `series[252].close` (not 251)
as the reference, returning `latest - reference` and
`(latest - reference) / reference * 100`. -/
theorem C1_reference_row_is_252 (s : List PriceRow) (first p252 : PriceRow)
    (hf : s.head? = some first) (h252 : s[252]? = some p252) :
    calculate_price_difference s =
      some (first.close - p252.close,
            (first.close - p252.close) / p252.close * 100) := by
  have hlen : 252 < s.length := by
    rcases List.getElem?_eq_some.mp h252 with ⟨h, _⟩
    exact h
  apply calculate_price_difference_eq
  · simp [latestClose, hf]
  · rw [referenceClose_of_gt s hlen, h252]
    rfl

/-- Witness for C1 at the 300-row series: the code result is
`(110 - 90, (110 - 90)/90 * 100) = (20, 200/9)`. -/
theorem C1_reference_row_is_252_witness :
    calculate_price_difference seriesC1 = some (20, 200 / 9) := by
  have h := C1_reference_row_is_252 seriesC1 (rowC 110) (rowC 90)
    (by decide) (by decide)
  rw [h]
  norm_num [rowC]

/-- Claim C2: for every non-empty PriceSeries sorted descending with at
most 252 rows, the reference is the last (earliest) row's close:
the result is `(first.close - last.close,
(first.close - last.close) / last.close * 100)`. -/
theorem C2_reference_is_last_row (s : List PriceRow) (first last : PriceRow)
    (hf : s.head? = some first) (hl : s.getLast? = some last)
    (hlen : s.length ≤ 252) :
    calculate_price_difference s =
      some (first.close - last.close,
            (first.close - last.close) / last.close * 100) := by
  apply calculate_price_difference_eq
  · simp [latestClose, hf]
  · rw [referenceClose_of_le s hlen, hl]
    rfl

/-- Witness for C2: the 5-row series (`close[0]=50`, `close[4]=40`)
gives `(10, 25)`, and the 1-row series gives `(0, 0)`. -/
theorem C2_reference_is_last_row_witness :
    calculate_price_difference series5 = some (10, 25) ∧
    calculate_price_difference series1 = some (0, 0) := by
  constructor
  · have h := C2_reference_is_last_row series5 (rowC 50) (rowC 40)
      (by decide) (by decide) (by decide)
    rw [h]
    norm_num [rowC]
  · have h := C2_reference_is_last_row series1 (rowC 40) (rowC 40)
      (by decide) (by decide) (by decide)
    rw [h]
    norm_num [rowC]

/-- Claim C10: whenever the reference close is strictly positive and
`calculate_price_difference` succeeds, the absolute and percentage
differences agree in sign, and the percentage is zero iff the absolute
difference is zero. -/
theorem C10_sign_agreement (s : List PriceRow) (ref d p : ℚ)
    (hr : referenceClose s = some ref) (hpos : 0 < ref)
    (h : calculate_price_difference s = some (d, p)) :
    ((0 < d ↔ 0 < p) ∧ (d < 0 ↔ p < 0)) ∧ (p = 0 ↔ d = 0) := by
  cases hls : latestClose s with
  | none => simp [calculate_price_difference, hls] at h
  | some latest =>
    rw [calculate_price_difference_eq s latest ref hls hr, Option.some.injEq,
      Prod.mk.injEq] at h
    obtain ⟨hd, hp⟩ := h
    have hne : ref ≠ 0 := ne_of_gt hpos
    have key : p * ref = d * 100 := by
      rw [← hd, ← hp]
      field_simp
    refine ⟨⟨⟨?_, ?_⟩, ⟨?_, ?_⟩⟩, ⟨?_, ?_⟩⟩
    · intro hx
      nlinarith [key, hpos]
    · intro hx
      nlinarith [key, hpos]
    · intro hx
      nlinarith [key, hpos]
    · intro hx
      nlinarith [key, hpos]
    · intro hx
      rw [hx, zero_mul] at key
      linarith [key]
    · intro hx
      rw [hx, zero_mul] at key
      rcases mul_eq_zero.mp key with h0 | h0
      · exact h0
      · exact absurd h0 hne

/-- Witness for C10 at the 5-row series: result `(10, 25)`, reference
`40 > 0`; both components positive, neither zero. -/
theorem C10_sign_agreement_witness :
    calculate_price_difference series5 = some (10, 25) ∧
    (((0 < (10:ℚ) ↔ (0:ℚ) < 25) ∧ ((10:ℚ) < 0 ↔ (25:ℚ) < 0)) ∧
      ((25:ℚ) = 0 ↔ (10:ℚ) = 0)) := by
  have hcalc : calculate_price_difference series5 = some (10, 25) := by
    have h := calculate_price_difference_eq series5 50 40 (by decide) (by decide)
    rw [h]
    norm_num
  exact ⟨hcalc,
    C10_sign_agreement series5 40 10 25 (by decide) (by norm_num) hcalc⟩

/-! ## The render guard of `app()` (src/app.py lines 119-164)

```python
stock_data = sh.get_stock_data(symbol, start_date, end_date)
...
if stock_data is not None:
    ...
    price_difference, percentage_difference = calculate_price_difference(stock_data)
    ... five metric tiles, chart, table, download button ...
```

`get_stock_data` always returns a DataFrame (possibly with zero rows),
never `None`, so a fetch with no rows reaches the body as `some []`. -/

/-- Outcome of the guarded body for a fetched `stock_data`. -/
inductive RenderOutcome where
  | skipped
  | rendered (metric : ℚ × ℚ)
  | raisesError
  deriving DecidableEq, Repr

/-- Embedding of the body of `app()` after the fetch: render only under
`if stock_data is not None:`; inside the guard, the first computation on
the series is `calculate_price_difference`, whose `iloc[0]` raises an
uncaught exception on an empty frame (the `none` case). -/
def app_render (stock_data : Option (List PriceRow)) : RenderOutcome :=
  match stock_data with
  | none => RenderOutcome.skipped
  | some data =>
    match calculate_price_difference data with
    | some pd => RenderOutcome.rendered pd
    | none => RenderOutcome.raisesError

/-- Claim C3 (refuted by the code): a zero-row fetch result is alleged
to be treated as a no-data condition, skipping rendering without error.
The fetch returns an empty DataFrame (not `None`), the guard
`if stock_data is not None:` therefore passes, and
`calculate_price_difference` is invoked on the empty series, where
`iloc[0]` raises. -/
theorem C3_empty_series_raises :
    calculate_price_difference [] = none ∧
    app_render (some []) = RenderOutcome.raisesError ∧
    app_render (some []) ≠ RenderOutcome.skipped := by decide

/-! ## Date-selector defaults (src/app.py lines 114-117)

```python
start_date = st.sidebar.date_input(
    "Start Date", datetime.datetime.now() - relativedelta(year=2023)
)
end_date = st.sidebar.date_input("End Date", datetime.datetime.now())
```
-/

/-- A calendar date. -/
structure Date where
  year : Int
  month : Nat
  day : Nat
  deriving DecidableEq, Repr

/-- Length of a month, with the Gregorian leap rule (needed to clamp a
day that does not exist in the target month). -/
def daysInMonth (year : Int) (month : Nat) : Nat :=
  if month = 2 then
    if year % 4 = 0 ∧ (year % 100 ≠ 0 ∨ year % 400 = 0) then 29 else 28
  else if month = 4 ∨ month = 6 ∨ month = 9 ∨ month = 11 then 30
  else 31

/-- Embedding of the Start Date default
`datetime.datetime.now() - relativedelta(year=2023)`:
`relativedelta(year=2023)` (singular `year`) carries only the absolute
field `year = 2023`; negation for the subtraction flips relative fields
only, so applying it replaces the year of `now` with 2023, clamping the
day to the target month's length. -/
def default_start_date (now : Date) : Date :=
  { year := 2023, month := now.month,
    day := min now.day (daysInMonth 2023 now.month) }

/-- Embedding of the End Date default `datetime.datetime.now()`. -/
def default_end_date (now : Date) : Date := now

/-- Following the spec's words, for comparison: "one year ago" — the
same calendar day one year earlier (day clamped to the shorter month
when needed), i.e. the behaviour of `relativedelta(years=1)`. -/
def spec_one_year_before (now : Date) : Date :=
  { year := now.year - 1, month := now.month,
    day := min now.day (daysInMonth (now.year - 1) now.month) }

/-- Claim C7 (refuted by the code): the start-date default is alleged to
be exactly one year before the current date.  The code computes
`now - relativedelta(year=2023)`, which replaces the year with 2023:
at `now = 2026-10-12` it yields `2023-10-12`, not `2025-10-12`.  The
end-date default does equal the current date. -/
theorem C7_start_default_is_year_2023 :
    default_start_date ⟨2026, 10, 12⟩ = ⟨2023, 10, 12⟩ ∧
    spec_one_year_before ⟨2026, 10, 12⟩ = ⟨2025, 10, 12⟩ ∧
    default_start_date ⟨2026, 10, 12⟩ ≠ spec_one_year_before ⟨2026, 10, 12⟩ ∧
    default_end_date ⟨2026, 10, 12⟩ = ⟨2026, 10, 12⟩ := by decide

/-! ## Metadata schema (src/models/metadata.py)

The pydantic model `StockMetaData`:

```python
uuid: str
currentPrice: PositiveFloat
fiftyTwoWeekLow: PositiveFloat
fiftyTwoWeekHigh: PositiveFloat
trailingPE: Optional[float] = Field(0.0, ge=0)
longName: str = Field(default="")
... seven more optional string fields defaulting to "" ...
```

The raw provider mapping is modelled as an association list from key to
a JSON-ish value (string, number or null); pydantic's string-to-number
lax coercion is not modelled (the provider delivers numbers as
numbers).  Validation collects one error per offending field, as
pydantic's `ValidationError` lists every failing field. -/

inductive JsonVal where
  | str (s : String)
  | num (q : ℚ)
  | null
  deriving DecidableEq, Repr

inductive ValidationErrorKind where
  | MissingField
  | OutOfRange
  | WrongType
  deriving DecidableEq, Repr

structure ValidationError where
  field : String
  kind : ValidationErrorKind
  deriving DecidableEq, Repr

/-- The validated record, with the exact fields and optionality of the
pydantic model: `trailingPE` is `Optional[float]` (so `none` is a
legal value), every other optional field is a plain string. -/
structure StockMetaData where
  uuid : String
  currentPrice : ℚ
  fiftyTwoWeekLow : ℚ
  fiftyTwoWeekHigh : ℚ
  trailingPE : Option ℚ
  longName : String
  symbol : String
  longBusinessSummary : String
  industry : String
  industryKey : String
  sector : String
  sectorKey : String
  website : String
  deriving DecidableEq, Repr

/-- A required `str` field (`uuid: str`): absent key is a missing-field
error, a non-string value a type error. -/
def fieldStr (info : List (String × JsonVal)) (name : String) :
    Except ValidationError String :=
  match info.lookup name with
  | none => Except.error ⟨name, ValidationErrorKind.MissingField⟩
  | some (JsonVal.str s) => Except.ok s
  | some _ => Except.error ⟨name, ValidationErrorKind.WrongType⟩

/-- A required `PositiveFloat` field: absent key is a missing-field
error, a non-positive number an out-of-range error. -/
def fieldPositiveFloat (info : List (String × JsonVal)) (name : String) :
    Except ValidationError ℚ :=
  match info.lookup name with
  | none => Except.error ⟨name, ValidationErrorKind.MissingField⟩
  | some (JsonVal.num q) =>
    if 0 < q then Except.ok q else Except.error ⟨name, ValidationErrorKind.OutOfRange⟩
  | some _ => Except.error ⟨name, ValidationErrorKind.WrongType⟩

/-- `trailingPE: Optional[float] = Field(0.0, ge=0)`: absent key takes
the default `0.0`; an explicit `None` is legal for `Optional[float]`
(the `ge` constraint applies only to the float branch); a number must
be `≥ 0`. -/
def fieldTrailingPE (info : List (String × JsonVal)) :
    Except ValidationError (Option ℚ) :=
  match info.lookup "trailingPE" with
  | none => Except.ok (some 0)
  | some JsonVal.null => Except.ok none
  | some (JsonVal.num q) =>
    if 0 ≤ q then Except.ok (some q)
    else Except.error ⟨"trailingPE", ValidationErrorKind.OutOfRange⟩
  | some _ => Except.error ⟨"trailingPE", ValidationErrorKind.WrongType⟩

/-- An optional string field with default `""`. -/
def fieldOptStr (info : List (String × JsonVal)) (name : String) :
    Except ValidationError String :=
  match info.lookup name with
  | none => Except.ok ""
  | some (JsonVal.str s) => Except.ok s
  | some _ => Except.error ⟨name, ValidationErrorKind.WrongType⟩

/-- The errors contributed by one field. -/
def errsOf {α : Type} : Except ValidationError α → List ValidationError
  | Except.ok _ => []
  | Except.error e => [e]

/-- The value of a successfully validated field (the default is dead
code whenever the field contributed no error). -/
def getOk {α : Type} : Except ValidationError α → α → α
  | Except.ok a, _ => a
  | Except.error _, d => d

def requiredKeys : List String :=
  ["uuid", "currentPrice", "fiftyTwoWeekLow", "fiftyTwoWeekHigh"]

def optionalStrKeys : List String :=
  ["longName", "symbol", "longBusinessSummary", "industry", "industryKey",
   "sector", "sectorKey", "website"]

def allKeys : List String := requiredKeys ++ "trailingPE" :: optionalStrKeys

/-- All validation errors of the mapping, in field declaration order
(pydantic reports every failing field). -/
def fieldErrors (info : List (String × JsonVal)) : List ValidationError :=
  errsOf (fieldStr info "uuid") ++
  errsOf (fieldPositiveFloat info "currentPrice") ++
  errsOf (fieldPositiveFloat info "fiftyTwoWeekLow") ++
  errsOf (fieldPositiveFloat info "fiftyTwoWeekHigh") ++
  errsOf (fieldTrailingPE info) ++
  errsOf (fieldOptStr info "longName") ++
  errsOf (fieldOptStr info "symbol") ++
  errsOf (fieldOptStr info "longBusinessSummary") ++
  errsOf (fieldOptStr info "industry") ++
  errsOf (fieldOptStr info "industryKey") ++
  errsOf (fieldOptStr info "sector") ++
  errsOf (fieldOptStr info "sectorKey") ++
  errsOf (fieldOptStr info "website")

/-- The record assembled from the field values (meaningful when
`fieldErrors info = []`). -/
def buildStockMetaData (info : List (String × JsonVal)) : StockMetaData where
  uuid := getOk (fieldStr info "uuid") ""
  currentPrice := getOk (fieldPositiveFloat info "currentPrice") 0
  fiftyTwoWeekLow := getOk (fieldPositiveFloat info "fiftyTwoWeekLow") 0
  fiftyTwoWeekHigh := getOk (fieldPositiveFloat info "fiftyTwoWeekHigh") 0
  trailingPE := getOk (fieldTrailingPE info) (some 0)
  longName := getOk (fieldOptStr info "longName") ""
  symbol := getOk (fieldOptStr info "symbol") ""
  longBusinessSummary := getOk (fieldOptStr info "longBusinessSummary") ""
  industry := getOk (fieldOptStr info "industry") ""
  industryKey := getOk (fieldOptStr info "industryKey") ""
  sector := getOk (fieldOptStr info "sector") ""
  sectorKey := getOk (fieldOptStr info "sectorKey") ""
  website := getOk (fieldOptStr info "website") ""

/-- Embedding of `StockMetaData(**info)` (pydantic construction,
src/models/metadata.py): keys outside the declared fields are ignored,
every declared field is validated, and construction either yields the
record or raises a `ValidationError` listing every failing field. -/
def validateStockMetaData (info : List (String × JsonVal)) :
    Except (List ValidationError) StockMetaData :=
  match fieldErrors info with
  | [] => Except.ok (buildStockMetaData info)
  | errs => Except.error errs

/-- Embedding of `get_stock_metadata` (src/lib/stock_helper.py lines
128-130): maps the provider's `info` mapping through the schema by
`StockMetaData(**metadata.info)`. -/
def get_stock_metadata (info : List (String × JsonVal)) :
    Except (List ValidationError) StockMetaData :=
  validateStockMetaData info

/-! Helper lemmas about validation. -/

theorem validate_eq_error (info : List (String × JsonVal))
    (h : fieldErrors info ≠ []) :
    validateStockMetaData info = Except.error (fieldErrors info) := by
  unfold validateStockMetaData
  cases e : fieldErrors info with
  | nil => exact absurd e h
  | cons a l => rfl

theorem validate_eq_ok (info : List (String × JsonVal))
    (h : fieldErrors info = []) :
    validateStockMetaData info = Except.ok (buildStockMetaData info) := by
  unfold validateStockMetaData
  rw [h]

theorem validate_ok_inv (info : List (String × JsonVal)) (r : StockMetaData)
    (h : validateStockMetaData info = Except.ok r) :
    fieldErrors info = [] ∧ r = buildStockMetaData info := by
  unfold validateStockMetaData at h
  cases e : fieldErrors info with
  | nil =>
    rw [e] at h
    exact ⟨rfl, (Except.ok.injEq .. ▸ h).symm⟩
  | cons a l =>
    rw [e] at h
    exact absurd h (by simp)

theorem error_of_mem_fieldErrors (info : List (String × JsonVal))
    (e : ValidationError) (h : e ∈ fieldErrors info) :
    ∃ errs, validateStockMetaData info = Except.error errs ∧ e ∈ errs :=
  ⟨fieldErrors info, validate_eq_error info (List.ne_nil_of_mem h), h⟩

/-- Claim C4: a mapping missing any of the required keys `uuid`,
`currentPrice`, `fiftyTwoWeekLow`, `fiftyTwoWeekHigh` fails validation
with a MissingField error for that key; a mapping whose `currentPrice`
or either 52-week bound is `≤ 0`, or whose `trailingPE` is `< 0`, fails
with an OutOfRange error for that key. -/
theorem C4_validation_errors :
    (∀ (info : List (String × JsonVal)) (k : String),
      k ∈ requiredKeys →
      info.lookup k = none →
      ∃ errs, validateStockMetaData info = Except.error errs ∧
        (⟨k, ValidationErrorKind.MissingField⟩ : ValidationError) ∈ errs) ∧
    (∀ (info : List (String × JsonVal)) (k : String) (q : ℚ),
      k ∈ ["currentPrice", "fiftyTwoWeekLow", "fiftyTwoWeekHigh"] →
      info.lookup k = some (JsonVal.num q) → q ≤ 0 →
      ∃ errs, validateStockMetaData info = Except.error errs ∧
        (⟨k, ValidationErrorKind.OutOfRange⟩ : ValidationError) ∈ errs) ∧
    (∀ (info : List (String × JsonVal)) (q : ℚ),
      info.lookup "trailingPE" = some (JsonVal.num q) → q < 0 →
      ∃ errs, validateStockMetaData info = Except.error errs ∧
        (⟨"trailingPE", ValidationErrorKind.OutOfRange⟩ : ValidationError) ∈ errs) := by
  refine ⟨?_, ?_, ?_⟩
  · intro info k hk hmiss
    apply error_of_mem_fieldErrors
    simp only [requiredKeys, List.mem_cons, List.mem_singleton] at hk
    rcases hk with rfl | rfl | rfl | rfl | h
    · simp [fieldErrors, errsOf, fieldStr, hmiss]
    · simp [fieldErrors, errsOf, fieldPositiveFloat, hmiss]
    · simp [fieldErrors, errsOf, fieldPositiveFloat, hmiss]
    · simp [fieldErrors, errsOf, fieldPositiveFloat, hmiss]
    · exact absurd h (List.not_mem_nil _)
  · intro info k q hk hlook hq
    apply error_of_mem_fieldErrors
    have hnot : ¬ (0 < q) := not_lt.mpr hq
    simp only [List.mem_cons, List.mem_singleton] at hk
    rcases hk with rfl | rfl | rfl | h
    · simp [fieldErrors, errsOf, fieldPositiveFloat, hlook, hnot]
    · simp [fieldErrors, errsOf, fieldPositiveFloat, hlook, hnot]
    · simp [fieldErrors, errsOf, fieldPositiveFloat, hlook, hnot]
    · exact absurd h (List.not_mem_nil _)
  · intro info q hlook hq
    apply error_of_mem_fieldErrors
    have hnot : ¬ (0 ≤ q) := not_le.mpr hq
    simp [fieldErrors, errsOf, fieldTrailingPE, hlook, hnot]

/-! Concrete metadata mappings. -/

def infoMissingUuid : List (String × JsonVal) :=
  [("currentPrice", JsonVal.num 10), ("fiftyTwoWeekLow", JsonVal.num 5),
   ("fiftyTwoWeekHigh", JsonVal.num 15)]

def infoNegPrice : List (String × JsonVal) :=
  [("uuid", JsonVal.str "u1"), ("currentPrice", JsonVal.num (-5)),
   ("fiftyTwoWeekLow", JsonVal.num 5), ("fiftyTwoWeekHigh", JsonVal.num 15)]

def infoNegPE : List (String × JsonVal) :=
  [("uuid", JsonVal.str "u1"), ("currentPrice", JsonVal.num 10),
   ("fiftyTwoWeekLow", JsonVal.num 5), ("fiftyTwoWeekHigh", JsonVal.num 15),
   ("trailingPE", JsonVal.num (-1))]

/-- Witness for C4: a mapping without `uuid` reports MissingField for
`uuid`; one with `currentPrice = -5` reports OutOfRange for
`currentPrice`; one with `trailingPE = -1` reports OutOfRange for
`trailingPE`. -/
theorem C4_validation_errors_witness :
    (∃ errs, validateStockMetaData infoMissingUuid = Except.error errs ∧
      (⟨"uuid", ValidationErrorKind.MissingField⟩ : ValidationError) ∈ errs) ∧
    (∃ errs, validateStockMetaData infoNegPrice = Except.error errs ∧
      (⟨"currentPrice", ValidationErrorKind.OutOfRange⟩ : ValidationError) ∈ errs) ∧
    (∃ errs, validateStockMetaData infoNegPE = Except.error errs ∧
      (⟨"trailingPE", ValidationErrorKind.OutOfRange⟩ : ValidationError) ∈ errs) :=
  ⟨C4_validation_errors.1 infoMissingUuid "uuid" (by decide) (by decide),
   C4_validation_errors.2.1 infoNegPrice "currentPrice" (-5) (by decide)
     (by decide) (by norm_num),
   C4_validation_errors.2.2 infoNegPE (-1) (by decide) (by norm_num)⟩

/-! Well-typedness of the optional fields of a mapping, and the value an
optional string field ends up with. -/

/-- The optional string field `name` is either omitted or a string. -/
def optStrOkB (info : List (String × JsonVal)) (name : String) : Bool :=
  match info.lookup name with
  | none => true
  | some (JsonVal.str _) => true
  | some _ => false

/-- `trailingPE` is omitted, `None`, or a non-negative number. -/
def trailingPEOkB (info : List (String × JsonVal)) : Bool :=
  match info.lookup "trailingPE" with
  | none => true
  | some JsonVal.null => true
  | some (JsonVal.num q) => decide (0 ≤ q)
  | some _ => false

/-- The provided string, else the default `""`. -/
def providedOr (info : List (String × JsonVal)) (name : String) : String :=
  match info.lookup name with
  | some (JsonVal.str s) => s
  | _ => ""

theorem errsOf_fieldOptStr (info : List (String × JsonVal)) (name : String)
    (h : optStrOkB info name = true) :
    errsOf (fieldOptStr info name) = [] := by
  unfold optStrOkB at h
  unfold fieldOptStr
  cases e : info.lookup name with
  | none => rfl
  | some v =>
    rw [e] at h
    cases v with
    | str s => rfl
    | num q => simp at h
    | null => simp at h

theorem getOk_fieldOptStr (info : List (String × JsonVal)) (name : String)
    (h : optStrOkB info name = true) :
    getOk (fieldOptStr info name) "" = providedOr info name := by
  unfold optStrOkB at h
  unfold fieldOptStr providedOr
  cases e : info.lookup name with
  | none => rfl
  | some v =>
    rw [e] at h
    cases v with
    | str s => rfl
    | num q => simp at h
    | null => simp at h

theorem errsOf_fieldTrailingPE (info : List (String × JsonVal))
    (h : trailingPEOkB info = true) :
    errsOf (fieldTrailingPE info) = [] := by
  unfold trailingPEOkB at h
  unfold fieldTrailingPE
  cases e : info.lookup "trailingPE" with
  | none => rfl
  | some v =>
    rw [e] at h
    cases v with
    | str s => simp at h
    | num q =>
      have hq : 0 ≤ q := of_decide_eq_true h
      simp [hq, errsOf]
    | null => rfl

/-! Unknown keys do not affect any field lookup. -/

theorem lookup_cons_of_ne {β : Type} (k name : String) (v : β)
    (info : List (String × β)) (h : name ≠ k) :
    ((k, v) :: info).lookup name = info.lookup name := by
  simp [List.lookup, beq_eq_false_iff_ne.mpr h]

theorem fieldStr_cons_unknown (info : List (String × JsonVal)) (k : String)
    (v : JsonVal) (name : String) (h : name ≠ k) :
    fieldStr ((k, v) :: info) name = fieldStr info name := by
  unfold fieldStr
  rw [lookup_cons_of_ne k name v info h]

theorem fieldPositiveFloat_cons_unknown (info : List (String × JsonVal))
    (k : String) (v : JsonVal) (name : String) (h : name ≠ k) :
    fieldPositiveFloat ((k, v) :: info) name = fieldPositiveFloat info name := by
  unfold fieldPositiveFloat
  rw [lookup_cons_of_ne k name v info h]

theorem fieldTrailingPE_cons_unknown (info : List (String × JsonVal))
    (k : String) (v : JsonVal) (h : "trailingPE" ≠ k) :
    fieldTrailingPE ((k, v) :: info) = fieldTrailingPE info := by
  unfold fieldTrailingPE
  rw [lookup_cons_of_ne k "trailingPE" v info h]

theorem fieldOptStr_cons_unknown (info : List (String × JsonVal)) (k : String)
    (v : JsonVal) (name : String) (h : name ≠ k) :
    fieldOptStr ((k, v) :: info) name = fieldOptStr info name := by
  unfold fieldOptStr
  rw [lookup_cons_of_ne k name v info h]

theorem validate_cons_unknown (info : List (String × JsonVal)) (k : String)
    (v : JsonVal) (hk : k ∉ allKeys) :
    validateStockMetaData ((k, v) :: info) = validateStockMetaData info := by
  have hne : ∀ name, name ∈ allKeys → name ≠ k := by
    intro name hn he
    exact hk (he ▸ hn)
  have h01 := fieldStr_cons_unknown info k v "uuid" (hne _ (by decide))
  have h02 := fieldPositiveFloat_cons_unknown info k v "currentPrice" (hne _ (by decide))
  have h03 := fieldPositiveFloat_cons_unknown info k v "fiftyTwoWeekLow" (hne _ (by decide))
  have h04 := fieldPositiveFloat_cons_unknown info k v "fiftyTwoWeekHigh" (hne _ (by decide))
  have h05 := fieldTrailingPE_cons_unknown info k v (hne _ (by decide))
  have h06 := fieldOptStr_cons_unknown info k v "longName" (hne _ (by decide))
  have h07 := fieldOptStr_cons_unknown info k v "symbol" (hne _ (by decide))
  have h08 := fieldOptStr_cons_unknown info k v "longBusinessSummary" (hne _ (by decide))
  have h09 := fieldOptStr_cons_unknown info k v "industry" (hne _ (by decide))
  have h10 := fieldOptStr_cons_unknown info k v "industryKey" (hne _ (by decide))
  have h11 := fieldOptStr_cons_unknown info k v "sector" (hne _ (by decide))
  have h12 := fieldOptStr_cons_unknown info k v "sectorKey" (hne _ (by decide))
  have h13 := fieldOptStr_cons_unknown info k v "website" (hne _ (by decide))
  have herr : fieldErrors ((k, v) :: info) = fieldErrors info := by
    unfold fieldErrors
    rw [h01, h02, h03, h04, h05, h06, h07, h08, h09, h10, h11, h12, h13]
  have hbuild : buildStockMetaData ((k, v) :: info) = buildStockMetaData info := by
    unfold buildStockMetaData
    rw [h01, h02, h03, h04, h05, h06, h07, h08, h09, h10, h11, h12, h13]
  unfold validateStockMetaData
  rw [herr, hbuild]

/-- Claim C5: a mapping holding the four required fields with strictly
positive numbers (and well-typed optional fields) validates
successfully; an omitted `trailingPE` defaults to `0.0`; each optional
string field is the provided string or defaults to `""`; and unknown
extra keys are ignored rather than rejected. -/
theorem C5_valid_mapping :
    (∀ (info : List (String × JsonVal)) (u : String) (cp lo hi : ℚ),
      info.lookup "uuid" = some (JsonVal.str u) →
      info.lookup "currentPrice" = some (JsonVal.num cp) → 0 < cp →
      info.lookup "fiftyTwoWeekLow" = some (JsonVal.num lo) → 0 < lo →
      info.lookup "fiftyTwoWeekHigh" = some (JsonVal.num hi) → 0 < hi →
      trailingPEOkB info = true →
      (∀ k, k ∈ optionalStrKeys → optStrOkB info k = true) →
      ∃ r, validateStockMetaData info = Except.ok r ∧
        r.uuid = u ∧ r.currentPrice = cp ∧ r.fiftyTwoWeekLow = lo ∧
        r.fiftyTwoWeekHigh = hi ∧
        (info.lookup "trailingPE" = none → r.trailingPE = some 0) ∧
        r.longName = providedOr info "longName" ∧
        r.symbol = providedOr info "symbol" ∧
        r.longBusinessSummary = providedOr info "longBusinessSummary" ∧
        r.industry = providedOr info "industry" ∧
        r.industryKey = providedOr info "industryKey" ∧
        r.sector = providedOr info "sector" ∧
        r.sectorKey = providedOr info "sectorKey" ∧
        r.website = providedOr info "website") ∧
    (∀ (info : List (String × JsonVal)) (k : String) (v : JsonVal),
      k ∉ allKeys →
      validateStockMetaData ((k, v) :: info) = validateStockMetaData info) := by
  constructor
  · intro info u cp lo hi hu hcp hcp0 hlo hlo0 hhi hhi0 hpe hstrs
    have h1 : fieldStr info "uuid" = Except.ok u := by
      simp [fieldStr, hu]
    have h2 : fieldPositiveFloat info "currentPrice" = Except.ok cp := by
      simp [fieldPositiveFloat, hcp, hcp0]
    have h3 : fieldPositiveFloat info "fiftyTwoWeekLow" = Except.ok lo := by
      simp [fieldPositiveFloat, hlo, hlo0]
    have h4 : fieldPositiveFloat info "fiftyTwoWeekHigh" = Except.ok hi := by
      simp [fieldPositiveFloat, hhi, hhi0]
    have h5 := errsOf_fieldTrailingPE info hpe
    have h6 := errsOf_fieldOptStr info "longName" (hstrs _ (by decide))
    have h7 := errsOf_fieldOptStr info "symbol" (hstrs _ (by decide))
    have h8 := errsOf_fieldOptStr info "longBusinessSummary" (hstrs _ (by decide))
    have h9 := errsOf_fieldOptStr info "industry" (hstrs _ (by decide))
    have h10 := errsOf_fieldOptStr info "industryKey" (hstrs _ (by decide))
    have h11 := errsOf_fieldOptStr info "sector" (hstrs _ (by decide))
    have h12 := errsOf_fieldOptStr info "sectorKey" (hstrs _ (by decide))
    have h13 := errsOf_fieldOptStr info "website" (hstrs _ (by decide))
    have herrs : fieldErrors info = [] := by
      simp only [fieldErrors, h1, h2, h3, h4, h5, h6, h7, h8, h9, h10, h11,
        h12, h13]
      rfl
    refine ⟨buildStockMetaData info, validate_eq_ok info herrs,
      ?_, ?_, ?_, ?_, ?_, ?_, ?_, ?_, ?_, ?_, ?_, ?_, ?_⟩
    · simp [buildStockMetaData, h1, getOk]
    · simp [buildStockMetaData, h2, getOk]
    · simp [buildStockMetaData, h3, getOk]
    · simp [buildStockMetaData, h4, getOk]
    · intro hnone
      simp [buildStockMetaData, fieldTrailingPE, hnone, getOk]
    · simpa [buildStockMetaData] using
        getOk_fieldOptStr info "longName" (hstrs _ (by decide))
    · simpa [buildStockMetaData] using
        getOk_fieldOptStr info "symbol" (hstrs _ (by decide))
    · simpa [buildStockMetaData] using
        getOk_fieldOptStr info "longBusinessSummary" (hstrs _ (by decide))
    · simpa [buildStockMetaData] using
        getOk_fieldOptStr info "industry" (hstrs _ (by decide))
    · simpa [buildStockMetaData] using
        getOk_fieldOptStr info "industryKey" (hstrs _ (by decide))
    · simpa [buildStockMetaData] using
        getOk_fieldOptStr info "sector" (hstrs _ (by decide))
    · simpa [buildStockMetaData] using
        getOk_fieldOptStr info "sectorKey" (hstrs _ (by decide))
    · simpa [buildStockMetaData] using
        getOk_fieldOptStr info "website" (hstrs _ (by decide))
  · intro info k v hk
    exact validate_cons_unknown info k v hk

/-- A mapping with valid required fields and well-typed optional fields
validates to the assembled record. -/
theorem validate_ok_of_fields (info : List (String × JsonVal)) (u : String)
    (cp lo hi : ℚ)
    (hu : info.lookup "uuid" = some (JsonVal.str u))
    (hcp : info.lookup "currentPrice" = some (JsonVal.num cp)) (hcp0 : 0 < cp)
    (hlo : info.lookup "fiftyTwoWeekLow" = some (JsonVal.num lo)) (hlo0 : 0 < lo)
    (hhi : info.lookup "fiftyTwoWeekHigh" = some (JsonVal.num hi)) (hhi0 : 0 < hi)
    (hpe : trailingPEOkB info = true)
    (hstrs : ∀ k, k ∈ optionalStrKeys → optStrOkB info k = true) :
    validateStockMetaData info = Except.ok (buildStockMetaData info) := by
  have h1 : fieldStr info "uuid" = Except.ok u := by
    simp [fieldStr, hu]
  have h2 : fieldPositiveFloat info "currentPrice" = Except.ok cp := by
    simp [fieldPositiveFloat, hcp, hcp0]
  have h3 : fieldPositiveFloat info "fiftyTwoWeekLow" = Except.ok lo := by
    simp [fieldPositiveFloat, hlo, hlo0]
  have h4 : fieldPositiveFloat info "fiftyTwoWeekHigh" = Except.ok hi := by
    simp [fieldPositiveFloat, hhi, hhi0]
  have h5 := errsOf_fieldTrailingPE info hpe
  have h6 := errsOf_fieldOptStr info "longName" (hstrs _ (by decide))
  have h7 := errsOf_fieldOptStr info "symbol" (hstrs _ (by decide))
  have h8 := errsOf_fieldOptStr info "longBusinessSummary" (hstrs _ (by decide))
  have h9 := errsOf_fieldOptStr info "industry" (hstrs _ (by decide))
  have h10 := errsOf_fieldOptStr info "industryKey" (hstrs _ (by decide))
  have h11 := errsOf_fieldOptStr info "sector" (hstrs _ (by decide))
  have h12 := errsOf_fieldOptStr info "sectorKey" (hstrs _ (by decide))
  have h13 := errsOf_fieldOptStr info "website" (hstrs _ (by decide))
  apply validate_eq_ok
  simp only [fieldErrors, h1, h2, h3, h4, h5, h6, h7, h8, h9, h10, h11,
    h12, h13]
  rfl

/-- A fully valid mapping: required fields positive, `longName`
provided, everything else omitted. -/
def infoValid : List (String × JsonVal) :=
  [("uuid", JsonVal.str "u1"), ("currentPrice", JsonVal.num 100),
   ("fiftyTwoWeekLow", JsonVal.num 80), ("fiftyTwoWeekHigh", JsonVal.num 120),
   ("longName", JsonVal.str "Acme Ltd")]

/-- Witness for C5 at `infoValid`, plus the unknown-key part at the
extra key `"marketCap"`. -/
theorem C5_valid_mapping_witness :
    (∃ r, validateStockMetaData infoValid = Except.ok r ∧
      r.uuid = "u1" ∧ r.currentPrice = 100 ∧ r.fiftyTwoWeekLow = 80 ∧
      r.fiftyTwoWeekHigh = 120 ∧
      (infoValid.lookup "trailingPE" = none → r.trailingPE = some 0) ∧
      r.longName = providedOr infoValid "longName" ∧
      r.symbol = providedOr infoValid "symbol" ∧
      r.longBusinessSummary = providedOr infoValid "longBusinessSummary" ∧
      r.industry = providedOr infoValid "industry" ∧
      r.industryKey = providedOr infoValid "industryKey" ∧
      r.sector = providedOr infoValid "sector" ∧
      r.sectorKey = providedOr infoValid "sectorKey" ∧
      r.website = providedOr infoValid "website") ∧
    validateStockMetaData (("marketCap", JsonVal.num 5) :: infoValid) =
      validateStockMetaData infoValid :=
  ⟨C5_valid_mapping.1 infoValid "u1" 100 80 120 (by decide) (by decide)
      (by norm_num) (by decide) (by norm_num) (by decide) (by norm_num)
      (by decide) (by decide),
   C5_valid_mapping.2 infoValid "marketCap" (JsonVal.num 5) (by decide)⟩

/-- Claim C9: a mapping that explicitly carries `trailingPE: None`
(rather than omitting the key) validates successfully with
`trailingPE = None` in the record — observably different from the
absent-key default `0.0`, which every successful validation of a
mapping without the key produces. -/
theorem C9_trailingPE_explicit_null (info : List (String × JsonVal))
    (u : String) (cp lo hi : ℚ)
    (hu : info.lookup "uuid" = some (JsonVal.str u))
    (hcp : info.lookup "currentPrice" = some (JsonVal.num cp)) (hcp0 : 0 < cp)
    (hlo : info.lookup "fiftyTwoWeekLow" = some (JsonVal.num lo)) (hlo0 : 0 < lo)
    (hhi : info.lookup "fiftyTwoWeekHigh" = some (JsonVal.num hi)) (hhi0 : 0 < hi)
    (hpe : info.lookup "trailingPE" = some JsonVal.null)
    (hstrs : ∀ k, k ∈ optionalStrKeys → optStrOkB info k = true) :
    ∃ r, validateStockMetaData info = Except.ok r ∧ r.trailingPE = none ∧
      ∀ (info2 : List (String × JsonVal)) (r2 : StockMetaData),
        validateStockMetaData info2 = Except.ok r2 →
        info2.lookup "trailingPE" = none →
        r2.trailingPE = some 0 ∧ r2.trailingPE ≠ r.trailingPE := by
  have hpeok : trailingPEOkB info = true := by
    simp [trailingPEOkB, hpe]
  refine ⟨buildStockMetaData info,
    validate_ok_of_fields info u cp lo hi hu hcp hcp0 hlo hlo0 hhi hhi0
      hpeok hstrs, ?_, ?_⟩
  · simp [buildStockMetaData, fieldTrailingPE, hpe, getOk]
  · intro info2 r2 hok2 hnone2
    obtain ⟨-, rfl⟩ := validate_ok_inv info2 r2 hok2
    constructor
    · simp [buildStockMetaData, fieldTrailingPE, hnone2, getOk]
    · simp [buildStockMetaData, fieldTrailingPE, hnone2, hpe, getOk]

/-- A valid mapping carrying an explicit `trailingPE: None`. -/
def infoNullPE : List (String × JsonVal) :=
  [("uuid", JsonVal.str "u1"), ("currentPrice", JsonVal.num 100),
   ("fiftyTwoWeekLow", JsonVal.num 80), ("fiftyTwoWeekHigh", JsonVal.num 120),
   ("trailingPE", JsonVal.null)]

/-- Witness for C9 at `infoNullPE`. -/
theorem C9_trailingPE_explicit_null_witness :
    ∃ r, validateStockMetaData infoNullPE = Except.ok r ∧ r.trailingPE = none ∧
      ∀ (info2 : List (String × JsonVal)) (r2 : StockMetaData),
        validateStockMetaData info2 = Except.ok r2 →
        info2.lookup "trailingPE" = none →
        r2.trailingPE = some 0 ∧ r2.trailingPE ≠ r.trailingPE :=
  C9_trailingPE_explicit_null infoNullPE "u1" 100 80 120 (by decide)
    (by decide) (by norm_num) (by decide) (by norm_num) (by decide)
    (by norm_num) (by decide) (by decide)

/-! ## `get_stock_data` (src/lib/stock_helper.py lines 50-55)

```python
stock_data = yf.download(f"{symbol}", start=start_date, end=end_date)
stock_data = stock_data[["Open", "High", "Low", "Close", "Volume"]]
stock_data.columns = ["Open", "High", "Low", "Close", "Volume"]
return stock_data.sort_index(ascending=False)
```

A provider response is a date-keyed table with at least the five
canonical columns and possibly more (e.g. `"Adj Close"`).  Dates are
modelled as `Nat` keys.  -/

/-- A pandas DataFrame: a date index, column labels, and row-major
data (well-formed when `data.length = index.length` and every row has
`columns.length` cells). -/
structure DataFrame where
  index : List Nat
  columns : List String
  data : List (List ℚ)
  deriving DecidableEq, Repr

def canonicalColumns : List String := ["Open", "High", "Low", "Close", "Volume"]

/-- `df[cols]` — keep the named columns in the given order; a missing
label raises a `KeyError` (the `none` branch). -/
def selectColumns (df : DataFrame) (cols : List String) : Option DataFrame :=
  if cols.all (fun c => df.columns.contains c) then
    some { index := df.index, columns := cols,
           data := df.data.map (fun row =>
             cols.map (fun c => (((df.columns.zip row).lookup c)).getD 0)) }
  else none

/-- `df.sort_index(ascending=False)` — sort the rows by the date index,
newest first. -/
def sort_index_desc (df : DataFrame) : DataFrame :=
  let sorted := List.insertionSort (fun a b : Nat × List ℚ => b.1 ≤ a.1)
    (df.index.zip df.data)
  { index := sorted.map Prod.fst, columns := df.columns,
    data := sorted.map Prod.snd }

/-- Embedding of `get_stock_data`: keep exactly the five canonical
columns (the subsequent rename assigns the same five names, an
identity here), then sort descending by date. -/
def get_stock_data (download : DataFrame) : Option DataFrame :=
  (selectColumns download canonicalColumns).map sort_index_desc

instance : IsTotal (Nat × List ℚ) (fun a b => b.1 ≤ a.1) :=
  ⟨fun a b => le_total b.1 a.1⟩

instance : IsTrans (Nat × List ℚ) (fun a b => b.1 ≤ a.1) :=
  ⟨fun _ _ _ hab hbc => le_trans hbc hab⟩

/-- Claim C6: for every well-formed provider table containing the five
canonical columns (and possibly extras), `get_stock_data` succeeds, its
output has exactly the canonical columns, its rows are a permutation of
the input rows, and — the dates being distinct, as the table is keyed
by date — its index is sorted strictly descending. -/
theorem C6_normalization (df : DataFrame)
    (hcols : ∀ c, c ∈ canonicalColumns → c ∈ df.columns)
    (hlen : df.data.length = df.index.length)
    (hnodup : df.index.Nodup) :
    ∃ out, get_stock_data df = some out ∧
      out.columns = canonicalColumns ∧
      out.index.Perm df.index ∧
      List.Pairwise (fun a b => b < a) out.index := by
  have hsel : selectColumns df canonicalColumns =
      some { index := df.index, columns := canonicalColumns,
             data := df.data.map (fun row =>
               canonicalColumns.map (fun c =>
                 (((df.columns.zip row).lookup c)).getD 0)) } := by
    unfold selectColumns
    rw [if_pos]
    rw [List.all_eq_true]
    intro c hc
    simpa using hcols c hc
  set sel : DataFrame :=
    { index := df.index, columns := canonicalColumns,
      data := df.data.map (fun row =>
        canonicalColumns.map (fun c =>
          (((df.columns.zip row).lookup c)).getD 0)) } with hseldef
  have hlen' : sel.index.length ≤ sel.data.length := by
    simp [hseldef, hlen]
  refine ⟨sort_index_desc sel, ?_, rfl, ?_, ?_⟩
  · simp [get_stock_data, hsel, hseldef]
  · have hperm : (List.insertionSort (fun a b : Nat × List ℚ => b.1 ≤ a.1)
        (sel.index.zip sel.data)).Perm (sel.index.zip sel.data) :=
      List.perm_insertionSort _ _
    have := hperm.map Prod.fst
    rw [List.map_fst_zip sel.index sel.data hlen'] at this
    simpa [sort_index_desc] using this
  · have hsorted := List.sorted_insertionSort
      (fun a b : Nat × List ℚ => b.1 ≤ a.1) (sel.index.zip sel.data)
    have hge0 : List.Pairwise (fun a b : Nat => b ≤ a)
        ((List.insertionSort (fun a b : Nat × List ℚ => b.1 ≤ a.1)
          (sel.index.zip sel.data)).map Prod.fst) :=
      List.Pairwise.map Prod.fst (fun a b h => h) hsorted
    have hge : List.Pairwise (fun a b : Nat => b ≤ a)
        ((sort_index_desc sel).index) := by
      simpa [sort_index_desc] using hge0
    have hperm : (sort_index_desc sel).index.Perm df.index := by
      have hperm0 : (List.insertionSort (fun a b : Nat × List ℚ => b.1 ≤ a.1)
          (sel.index.zip sel.data)).Perm (sel.index.zip sel.data) :=
        List.perm_insertionSort _ _
      have := hperm0.map Prod.fst
      rw [List.map_fst_zip sel.index sel.data hlen'] at this
      simpa [sort_index_desc] using this
    have hnodup' : (sort_index_desc sel).index.Nodup :=
      hperm.nodup_iff.mpr hnodup
    have hcomb := hge.and hnodup'
    exact hcomb.imp (fun h => lt_of_le_of_ne h.1 (Ne.symm h.2))

/-- A provider response with the extra column `"Adj Close"` and
unsorted dates. -/
def dfRaw : DataFrame :=
  { index := [1, 3, 2],
    columns := ["Open", "High", "Low", "Close", "Volume", "Adj Close"],
    data := [[1, 2, 0, 1, 10, 9], [2, 3, 1, 2, 20, 8], [3, 4, 2, 3, 30, 7]] }

/-- Witness for C6 at `dfRaw`. -/
theorem C6_normalization_witness :
    ∃ out, get_stock_data dfRaw = some out ∧
      out.columns = canonicalColumns ∧
      out.index.Perm dfRaw.index ∧
      List.Pairwise (fun a b => b < a) out.index :=
  C6_normalization dfRaw (by decide) (by decide) (by decide)

/-! ## CSV export (src/app.py lines 159-164)

```python
st.download_button(
    "Download Stock Data Overview",
    stock_data.to_csv(index=True),
    file_name=f"{symbol}_stock_data.csv",
    mime="text/csv",
)
```

The delimited document is modelled at the level of rendered cells
(each cell a `List Char`): a header line holding the index label and
the column labels, then one line per row, cells joined by commas and
lines by newlines. -/

/-- One rendered cell of the document. -/
abbrev Cell := List Char

/-- Join cells with a separator character. -/
def joinSep (sep : Char) : List Cell → List Char
  | [] => []
  | [c] => c
  | c :: cs => c ++ sep :: joinSep sep cs

/-- Prepend a character to the first cell of a split. -/
def consHead (c : Char) : List Cell → List Cell
  | [] => [[c]]
  | h :: t => (c :: h) :: t

/-- Split a character list at a separator. -/
def splitSep (sep : Char) : List Char → List Cell
  | [] => [[]]
  | c :: rest =>
    if c = sep then [] :: splitSep sep rest else consHead c (splitSep sep rest)

theorem splitSep_ne_nil (sep : Char) (l : List Char) : splitSep sep l ≠ [] := by
  induction l with
  | nil => simp [splitSep]
  | cons c rest ih =>
    by_cases hc : c = sep
    · simp [splitSep, hc]
    · simp only [splitSep, if_neg hc]
      cases splitSep sep rest with
      | nil => simp [consHead]
      | cons h t => simp [consHead]

theorem splitSep_no_sep (sep : Char) (c : Cell) (h : sep ∉ c) :
    splitSep sep c = [c] := by
  induction c with
  | nil => rfl
  | cons x rest ih =>
    rw [List.mem_cons, not_or] at h
    simp [splitSep, Ne.symm h.1, ih h.2, consHead]

theorem splitSep_append (sep : Char) (c : Cell) (r : List Char) (h : sep ∉ c) :
    splitSep sep (c ++ sep :: r) = c :: splitSep sep r := by
  induction c with
  | nil => simp [splitSep]
  | cons x rest ih =>
    rw [List.mem_cons, not_or] at h
    simp only [List.cons_append, splitSep, if_neg (Ne.symm h.1),
      List.append_eq, ih h.2, consHead]

theorem splitSep_joinSep (sep : Char) (cells : List Cell)
    (hne : cells ≠ []) (h : ∀ c ∈ cells, sep ∉ c) :
    splitSep sep (joinSep sep cells) = cells := by
  induction cells with
  | nil => exact absurd rfl hne
  | cons c cs ih =>
    cases cs with
    | nil => exact splitSep_no_sep sep c (h c (by simp))
    | cons c' cs' =>
      have h1 : sep ∉ c := h c (by simp)
      have h2 : ∀ x ∈ c' :: cs', sep ∉ x :=
        fun x hx => h x (List.mem_cons_of_mem c hx)
      calc splitSep sep (joinSep sep (c :: c' :: cs'))
          = splitSep sep (c ++ sep :: joinSep sep (c' :: cs')) := rfl
        _ = c :: splitSep sep (joinSep sep (c' :: cs')) :=
            splitSep_append sep c _ h1
        _ = c :: (c' :: cs') := by rw [ih (by simp) h2]

theorem mem_joinSep (sep : Char) (cells : List Cell) (x : Char)
    (hx : x ∈ joinSep sep cells) : x = sep ∨ ∃ c ∈ cells, x ∈ c := by
  induction cells with
  | nil => simp [joinSep] at hx
  | cons c cs ih =>
    cases cs with
    | nil => exact Or.inr ⟨c, by simp, hx⟩
    | cons c' cs' =>
      have hx' : x ∈ c ++ sep :: joinSep sep (c' :: cs') := hx
      rcases List.mem_append.mp hx' with h1 | h2
      · exact Or.inr ⟨c, by simp, h1⟩
      · rcases List.mem_cons.mp h2 with rfl | h3
        · exact Or.inl rfl
        · rcases ih h3 with h4 | ⟨cc, hcc, hxin⟩
          · exact Or.inl h4
          · exact Or.inr ⟨cc, List.mem_cons_of_mem c hcc, hxin⟩

/-- Embedding of `stock_data.to_csv(index=True)` at cell level: a
header line with the index label and the column names, then one line
per observation in the in-memory (descending-date) row order. -/
def to_csv (indexName : Cell) (columns : List Cell)
    (rows : List (Cell × List Cell)) : List Char :=
  joinSep '\n' (joinSep ',' (indexName :: columns) ::
    rows.map (fun r => joinSep ',' (r.1 :: r.2)))

/-- Modelled from the spec: re-parsing the delimited export — split the
document into lines at newlines and each line into cells at commas.
The repository only exports; the parser realizes the spec's §6 "Export
artifact" format description for the round-trip property. -/
def parse_csv (doc : List Char) : List (List Cell) :=
  (splitSep '\n' doc).map (splitSep ',')

/-- `file_name=f"{symbol}_stock_data.csv"` of the download button. -/
def download_file_name (symbol : String) : String :=
  symbol ++ "_stock_data.csv"

/-- Claim C8: for every series whose rendered cells contain neither the
comma delimiter nor a newline, exporting (header row of the index label
and column names, one line per observation, in-memory row order kept)
and re-parsing reproduces exactly the header and the rows in order; the
download is offered under `{symbol}_stock_data.csv`. -/
theorem C8_export_roundtrip (indexName : Cell) (columns : List Cell)
    (rows : List (Cell × List Cell))
    (hhead : ∀ cell ∈ indexName :: columns,
      (',' : Char) ∉ cell ∧ ('\n' : Char) ∉ cell)
    (hrows : ∀ r ∈ rows, ((',' : Char) ∉ r.1 ∧ ('\n' : Char) ∉ r.1) ∧
      ∀ cell ∈ r.2, (',' : Char) ∉ cell ∧ ('\n' : Char) ∉ cell) :
    parse_csv (to_csv indexName columns rows) =
      (indexName :: columns) :: rows.map (fun r => r.1 :: r.2) ∧
    ∀ symbol, download_file_name symbol = symbol ++ "_stock_data.csv" := by
  refine ⟨?_, fun _ => rfl⟩
  unfold parse_csv to_csv
  have hnl : ∀ line ∈ joinSep ',' (indexName :: columns) ::
      rows.map (fun r => joinSep ',' (r.1 :: r.2)), ('\n' : Char) ∉ line := by
    intro line hline hmem
    rcases List.mem_cons.mp hline with rfl | hrow
    · rcases mem_joinSep ',' (indexName :: columns) '\n' hmem with
        he | ⟨c, hc, hxc⟩
      · exact absurd he (by decide)
      · exact (hhead c hc).2 hxc
    · rcases List.mem_map.mp hrow with ⟨r, hr, rfl⟩
      rcases mem_joinSep ',' (r.1 :: r.2) '\n' hmem with he | ⟨c, hc, hxc⟩
      · exact absurd he (by decide)
      · rcases List.mem_cons.mp hc with rfl | hc2
        · exact (hrows r hr).1.2 hxc
        · exact ((hrows r hr).2 c hc2).2 hxc
  rw [splitSep_joinSep '\n' _ (by simp) hnl]
  rw [List.map_cons]
  rw [splitSep_joinSep ',' (indexName :: columns) (by simp)
    (fun c hc => (hhead c hc).1)]
  rw [List.map_map]
  congr 1
  apply List.map_congr_left
  intro r hr
  show splitSep ',' (joinSep ',' (r.1 :: r.2)) = r.1 :: r.2
  apply splitSep_joinSep ',' (r.1 :: r.2) (by simp)
  intro c hc
  rcases List.mem_cons.mp hc with rfl | hc2
  · exact (hrows r hr).1.1
  · exact ((hrows r hr).2 c hc2).1

/-- The header cells of the export: the `"Date"` index label and the
five canonical column names. -/
def dateHeaderCell : Cell := ['D', 'a', 't', 'e']

def exportColumnCells : List Cell :=
  [['O', 'p', 'e', 'n'], ['H', 'i', 'g', 'h'], ['L', 'o', 'w'],
   ['C', 'l', 'o', 's', 'e'], ['V', 'o', 'l', 'u', 'm', 'e']]

/-- Two rendered observations, newest first. -/
def exportRowCells : List (Cell × List Cell) :=
  [(['2'], [['1'], ['2'], ['0'], ['1'], ['9']]),
   (['1'], [['3'], ['4'], ['2'], ['3'], ['8']])]

/-- Witness for C8 at a two-row rendered series. -/
theorem C8_export_roundtrip_witness :
    parse_csv (to_csv dateHeaderCell exportColumnCells exportRowCells) =
      (dateHeaderCell :: exportColumnCells) ::
        exportRowCells.map (fun r => r.1 :: r.2) ∧
    download_file_name "AAPL" = "AAPL_stock_data.csv" := by
  have h := C8_export_roundtrip dateHeaderCell exportColumnCells
    exportRowCells (by decide) (by decide)
  exact ⟨h.1, h.2 "AAPL"⟩
